import Mathlib

/-!
Shallow embedding of the weekly workout scheduler component
(`src/unnamed/part_000`, the `Scheduler` React component).

The component keeps three pieces of state: the list of scheduled sessions,
the session form, and the exercise-draft buffer.  Identifiers produced by
`uuid()` are modelled by a monotone counter threaded through the state
(`freshCounter`); each `uuid()` call in the source consumes one counter
value, in source evaluation order.  The module-level constants
(`defaultExercises`, `templates`, the initial state of the component) use
the counter values 0..11 in module evaluation order.

JavaScript `%` on numbers truncates toward zero, so it is modelled by
`Int.tmod`.  `String.prototype.localeCompare` is modelled as the sign of
lexicographic comparison of the code points (the strings compared in this
program are zero-padded "HH:MM" digit strings, where the default locale
collation agrees with code-point order).  `parseInt(s, 10)` applied to a
string that is not entirely decimal digits, and any downstream arithmetic
on the resulting `NaN`, are modelled by the `"NaN:NaN"` result string that
the source's `adjustTime` produces in that case.
-/

namespace GymPlanner

inductive DayKey where
  | monday | tuesday | wednesday | thursday | friday | saturday | sunday
deriving DecidableEq

def dayKeys : List DayKey :=
  [.monday, .tuesday, .wednesday, .thursday, .friday, .saturday, .sunday]

inductive Intensity where
  | light | moderate | intense
deriving DecidableEq

structure ExercisePlan where
  id : Nat
  name : String
  focus : String
  sets : Int
  reps : String
  notes : String
deriving DecidableEq

structure SessionPlan where
  id : Nat
  day : DayKey
  start : String
  endTime : String
  focus : String
  intensity : Intensity
  location : String
  target : String
  notes : String
  exercises : List ExercisePlan
deriving DecidableEq

structure Template where
  label : String
  focus : String
  intensity : Intensity
  location : String
  target : String
  notes : String
  exercises : List ExercisePlan
deriving DecidableEq

/-- The session form fields (`SessionPlan` without `id` and `exercises`). -/
structure SessionForm where
  day : DayKey
  start : String
  endTime : String
  focus : String
  intensity : Intensity
  location : String
  target : String
  notes : String
deriving DecidableEq

/-- The `defaultExercises` constant of the source; `uuid()` values 0 and 1. -/
def defaultExercises : List ExercisePlan :=
  [{ id := 0, name := "Barbell Back Squat", focus := "Compound", sets := 4,
     reps := "6-8", notes := "Tempo 3-1-1, rest 120s" },
   { id := 1, name := "Romanian Deadlift", focus := "Posterior Chain", sets := 3,
     reps := "8-10", notes := "Use straps if grip fatigues" }]

/-- The static template catalog; `uuid()` values 2..9. -/
def templates : List Template :=
  [{ label := "Push Power 60m", focus := "Upper Body Push", intensity := .intense,
     location := "Strength Zone", target := "Chest/Shoulders/Triceps",
     notes := "Prioritize heavy compounds, finish with sled pushes.",
     exercises :=
       [{ id := 2, name := "Flat Bench Press", focus := "Compound", sets := 5,
          reps := "5", notes := "Add 2.5kg each microcycle" },
        { id := 3, name := "Seated DB Shoulder Press", focus := "Accessory", sets := 3,
          reps := "8-10", notes := "" },
        { id := 4, name := "Weighted Dips", focus := "Accessory", sets := 3,
          reps := "AMRAP", notes := "RPE 8" }] },
   { label := "Conditioning 40m", focus := "Engine Builder", intensity := .moderate,
     location := "Turf + Assault Bike", target := "Cardio / Core",
     notes := "Sustainable heart rate 150-160, nasal breathing focus.",
     exercises :=
       [{ id := 5, name := "Assault Bike Intervals", focus := "Cardio", sets := 8,
          reps := "60s on / 60s off", notes := "" },
        { id := 6, name := "Farmer Carry", focus := "Core / Grip", sets := 4,
          reps := "40m", notes := "Heavy kettlebells" }] },
   { label := "Mobility Reset 30m", focus := "Recovery", intensity := .light,
     location := "Studio", target := "Mobility / Breathwork",
     notes := "Full-body flow to enhance recovery and joint health.",
     exercises :=
       [{ id := 7, name := "90/90 Hip Flow", focus := "Mobility", sets := 3,
          reps := "3 min per side", notes := "" },
        { id := 8, name := "Thoracic Opener", focus := "Mobility", sets := 3,
          reps := "12 reps", notes := "Foam roller" },
        { id := 9, name := "Box Breathing", focus := "Breathwork", sets := 1,
          reps := "6 min", notes := "4-4-4-4 cadence" }] }]

def initialSessionForm : SessionForm :=
  { day := .monday, start := "07:00", endTime := "08:15",
    focus := "Lower Body Strength", intensity := .intense,
    location := "Rack Bay", target := "Quads/Glutes/Core", notes := "" }

/-- The state held by the `Scheduler` component (`useState` hooks), plus the
fresh-id counter that models `uuid()`. -/
structure SchedState where
  sessions : List SessionPlan
  sessionForm : SessionForm
  exerciseDrafts : List ExercisePlan
  freshCounter : Nat
deriving DecidableEq

/-- Initial component state: one seeded session (`uuid()` value 10) built from
`initialSessionForm` and `defaultExercises`, and one blank exercise draft
(`uuid()` value 11). -/
def initState : SchedState :=
  { sessions :=
      [{ id := 10, day := initialSessionForm.day, start := initialSessionForm.start,
         endTime := initialSessionForm.endTime, focus := initialSessionForm.focus,
         intensity := initialSessionForm.intensity, location := initialSessionForm.location,
         target := initialSessionForm.target, notes := initialSessionForm.notes,
         exercises := defaultExercises }],
    sessionForm := initialSessionForm,
    exerciseDrafts :=
      [{ id := 11, name := "", focus := "", sets := 3, reps := "8-12", notes := "" }],
    freshCounter := 12 }

/-- Model of `parseInt(s, 10)` on all-digit strings: the parsed number, or
`none` for the `NaN` that an empty or not-all-digit string produces. -/
def parseInt10 (s : String) : Option Nat :=
  if s.data ≠ [] ∧ s.data.all (fun c => c.isDigit) then
    some (s.data.foldl (fun n c => n * 10 + (c.toNat - 48)) 0)
  else none

/-- Model of `String.prototype.trim`: strip leading and trailing whitespace. -/
def jsTrim (s : String) : String :=
  String.mk (((s.data.dropWhile Char.isWhitespace).reverse.dropWhile
    Char.isWhitespace).reverse)

/-- Model of `split(':')` on the character list: cut at every colon. -/
def splitColonAux : List Char → List (List Char)
  | [] => [[]]
  | c :: rest =>
    let r := splitColonAux rest
    if c = ':' then [] :: r
    else
      match r with
      | [] => [[c]]
      | h :: t => (c :: h) :: t

/-- Model of `time.split(':')`: the colon-separated pieces of the string. -/
def splitColon (s : String) : List String :=
  (splitColonAux s.data).map String.mk

/-- Sign of `a.localeCompare(b)` (lexicographic on code points; the program
only compares zero-padded "HH:MM" digit strings). -/
def localeCompareInt (a b : String) : Int :=
  if a < b then -1 else if b < a then 1 else 0

/-- The `grouped` derivation: per day, the sessions of that day sorted by
ascending start time (`.sort((a, b) => a.start.localeCompare(b.start))`).
JavaScript's stable `Array.prototype.sort` is modelled by `List.mergeSort`. -/
def grouped (sessions : List SessionPlan) (day : DayKey) : List SessionPlan :=
  (sessions.filter (fun s => decide (s.day = day))).mergeSort
    (fun a b => decide (localeCompareInt a.start b.start ≤ 0))

/-- The comparator of the `nextSessionId` derivation: day-index difference,
ties broken by `localeCompare` of the start times. -/
def sessionCmp (a b : SessionPlan) : Int :=
  let dayIndex : Int := (dayKeys.indexOf a.day : Int) - (dayKeys.indexOf b.day : Int)
  if dayIndex ≠ 0 then dayIndex else localeCompareInt a.start b.start

/-- Whether `a` may come before `b` under the `nextSessionId` comparator. -/
def sessionLE (a b : SessionPlan) : Bool := decide (sessionCmp a b ≤ 0)

/-- The `nextSessionId` derivation: `null` when the store is empty, else the
id of the head of the sessions sorted by `sessionCmp`. -/
def nextSessionId (sessions : List SessionPlan) : Option Nat :=
  if sessions.length = 0 then none
  else ((sessions.mergeSort sessionLE).head?).map (fun s => s.id)

/-- One field update of an exercise draft (`handleExerciseChange`'s
`key`/`value` pair; `sets` carries a number, the rest carry strings). -/
inductive ExerciseField where
  | name (v : String)
  | focus (v : String)
  | sets (v : Int)
  | reps (v : String)
  | notes (v : String)

def setExerciseField (e : ExercisePlan) : ExerciseField → ExercisePlan
  | .name v => { e with name := v }
  | .focus v => { e with focus := v }
  | .sets v => { e with sets := v }
  | .reps v => { e with reps := v }
  | .notes v => { e with notes := v }

/-- The operation `handleExerciseChange(id, key, value)`: update the matching draft. -/
def handleExerciseChange (id : Nat) (u : ExerciseField) (st : SchedState) : SchedState :=
  { st with exerciseDrafts :=
      st.exerciseDrafts.map (fun e => if e.id == id then setExerciseField e u else e) }

/-- The value the sets input's onChange passes to `handleExerciseChange`:
`Number(event.target.value) || 0` modelled on non-negative digit-string
inputs (empty or non-numeric input yields 0). -/
def setsInputValue (s : String) : Int :=
  match parseInt10 s with
  | some n => (n : Int)
  | none => 0

/-- A blank exercise draft row (`name`, `focus`, `notes` empty, 3 sets);
`addExerciseDraft` uses reps "10", the post-`addSession` reset uses "8-12". -/
def blankDraft (id : Nat) (reps : String) : ExercisePlan :=
  { id := id, name := "", focus := "", sets := 3, reps := reps, notes := "" }

/-- The operation `addExerciseDraft`: append one blank draft row. -/
def addExerciseDraft (st : SchedState) : SchedState :=
  { st with
    exerciseDrafts := st.exerciseDrafts ++ [blankDraft st.freshCounter ("10")],
    freshCounter := st.freshCounter + 1 }

/-- The operation `removeExerciseDraft(id)`: no-op when only one draft row remains. -/
def removeExerciseDraft (id : Nat) (st : SchedState) : SchedState :=
  { st with exerciseDrafts :=
      if st.exerciseDrafts.length = 1 then st.exerciseDrafts
      else st.exerciseDrafts.filter (fun e => e.id != id) }

/-- Give each exercise of the list a fresh id (`.map` over `uuid()` calls),
returning the updated list and the next counter value. -/
def assignFreshIds (c : Nat) : List ExercisePlan → List ExercisePlan × Nat
  | [] => ([], c)
  | e :: rest =>
    let (rest', c') := assignFreshIds (c + 1) rest
    ({ e with id := c } :: rest', c')

/-- The fixed fallback exercise substituted when every draft name is blank. -/
def fallbackExercise (id : Nat) : ExercisePlan :=
  { id := id, name := "Full-Body Circuit", focus := "Conditioning", sets := 5,
    reps := "45s on / 15s off", notes := "Use sled, battle ropes, and med-ball slams" }

/-- The operation `addSession(customExercises?)`: keep the drafts with non-blank trimmed
names and give them fresh ids; substitute the fallback exercise when none
remain; append one session built from the form; reset the draft buffer. -/
def addSession (customExercises : Option (List ExercisePlan)) (st : SchedState) : SchedState :=
  let drafts := customExercises.getD st.exerciseDrafts
  let kept := drafts.filter (fun e => decide (0 < (jsTrim e.name).length))
  let p :=
    if kept.isEmpty then ([fallbackExercise st.freshCounter], st.freshCounter + 1)
    else assignFreshIds st.freshCounter kept
  let sid := p.2
  { st with
    sessions := st.sessions ++
      [{ id := sid, day := st.sessionForm.day, start := st.sessionForm.start,
         endTime := st.sessionForm.endTime, focus := st.sessionForm.focus,
         intensity := st.sessionForm.intensity, location := st.sessionForm.location,
         target := st.sessionForm.target, notes := st.sessionForm.notes,
         exercises := p.1 }],
    exerciseDrafts := [blankDraft (sid + 1) ("8-12")],
    freshCounter := sid + 2 }

/-- The operation `applyTemplateToDay(day, templateIndex)`: append a session on the given
day with fixed 18:00-19:00 times, copying the template's fields and a
fresh-id copy of its exercises (the session's `uuid()` runs first). -/
def applyTemplateToDay (day : DayKey) (templateIndex : Fin templates.length)
    (st : SchedState) : SchedState :=
  let template := templates.get templateIndex
  let sid := st.freshCounter
  let p := assignFreshIds (st.freshCounter + 1) template.exercises
  { st with
    sessions := st.sessions ++
      [{ id := sid, day := day, start := "18:00", endTime := "19:00",
         focus := template.focus, intensity := template.intensity,
         location := template.location, target := template.target,
         notes := template.notes, exercises := p.1 }],
    freshCounter := p.2 }

/-- The operation `clearDay(day)`: drop every session on that day. -/
def clearDay (day : DayKey) (st : SchedState) : SchedState :=
  { st with sessions := st.sessions.filter (fun s => decide (¬ s.day = day)) }

/-- Left-pad with zeros to length 2 (`String.prototype.padStart(2, '0')`). -/
def padStart2 (s : String) : String :=
  if s.length ≥ 2 then s else String.mk (List.replicate (2 - s.length) '0') ++ s

/-- Format hours and minutes as zero-padded "HH:MM". -/
def fmtHHMM (h m : Nat) : String :=
  padStart2 (toString h) ++ (":") ++ padStart2 (toString m)

/-- The `adjustTime` closure of `duplicateSession`: split on ":", parse both
parts in base 10, shift by the offset, normalize modulo 1440 (adding 1440
to absorb the sign JavaScript `%` leaves on negatives), reformat.  A part
that is not a plain decimal numeral makes `parseInt` return `NaN`, and the
source then produces the string "NaN:NaN". -/
def adjustTime (offsetMinutes : Int) (time : String) : String :=
  match splitColon time with
  | hourStr :: minuteStr :: _ =>
    match parseInt10 hourStr, parseInt10 minuteStr with
    | some h, some m =>
      let minuteValue : Int := (h : Int) * 60 + (m : Int) + offsetMinutes
      let normalized : Int := (Int.tmod minuteValue (24 * 60) + 24 * 60).tmod (24 * 60)
      fmtHHMM (normalized.toNat / 60) (normalized.toNat % 60)
    | _, _ => "NaN:NaN"
  | _ => "NaN:NaN"

inductive Direction where
  | next | previous
deriving DecidableEq

/-- The operation `duplicateSession(sessionId, direction)`: no-op when the id is absent;
otherwise append a copy on the adjacent day (±1 through `dayKeys` with
wraparound), both times shifted ±60 minutes, a note suffix recording the
direction and today's date (`today` models `format(new Date(), 'MMM d')`),
and fresh ids for the copy and its exercises. -/
def duplicateSession (sessionId : Nat) (direction : Direction) (today : String)
    (st : SchedState) : SchedState :=
  match st.sessions.find? (fun s => s.id == sessionId) with
  | none => st
  | some target =>
    let currentDayIndex := dayKeys.indexOf target.day
    let nextIndex : Nat :=
      match direction with
      | .next => (currentDayIndex + 1) % dayKeys.length
      | .previous =>
        (Int.tmod ((currentDayIndex : Int) - 1 + (dayKeys.length : Int))
          (dayKeys.length : Int)).toNat
    let newDay := dayKeys.getD nextIndex .monday
    let offsetMinutes : Int := match direction with | .next => 60 | .previous => -60
    let sid := st.freshCounter
    let p := assignFreshIds (st.freshCounter + 1) target.exercises
    { st with
      sessions := st.sessions ++
        [{ target with
           id := sid, day := newDay,
           start := adjustTime offsetMinutes target.start,
           endTime := adjustTime offsetMinutes target.endTime,
           notes := target.notes ++ (" • Duplicated ") ++
             (match direction with
              | .next => "forward"
              | .previous => "backward") ++ (" on ") ++ today,
           exercises := p.1 }],
      freshCounter := p.2 }

/-- The operation `removeSession(sessionId)`: keep the sessions whose id differs. -/
def removeSession (sessionId : Nat) (st : SchedState) : SchedState :=
  { st with sessions := st.sessions.filter (fun s => s.id != sessionId) }

/-- The minutes-since-midnight value the specification prescribes for a
shifted time: `((hours*60 + minutes + offset) % 1440 + 1440) % 1440` with
the truncating `%` of JavaScript. -/
def claimShift (off : Int) (h m : Nat) : Nat :=
  ((Int.tmod ((h : Int) * 60 + (m : Int) + off) 1440 + 1440).tmod 1440).toNat

/-- Modelled from the spec: stepping one day through the fixed cycle
Monday..Sunday with wraparound (after Sunday comes Monday and vice
versa).  Spec-side definition, to be compared with the day computed by
`duplicateSession`. -/
def stepDaySpec : Direction → DayKey → DayKey
  | .next, .monday => .tuesday
  | .next, .tuesday => .wednesday
  | .next, .wednesday => .thursday
  | .next, .thursday => .friday
  | .next, .friday => .saturday
  | .next, .saturday => .sunday
  | .next, .sunday => .monday
  | .previous, .monday => .sunday
  | .previous, .tuesday => .monday
  | .previous, .wednesday => .tuesday
  | .previous, .thursday => .wednesday
  | .previous, .friday => .thursday
  | .previous, .saturday => .friday
  | .previous, .sunday => .saturday

/-- Every exercise of every session of the list has a positive set count. -/
abbrev SetsPos (sessions : List SessionPlan) : Prop :=
  ∀ s ∈ sessions, ∀ e ∈ s.exercises, 0 < e.sets

lemma assignFreshIds_cons (c : Nat) (e : ExercisePlan) (es : List ExercisePlan) :
    assignFreshIds c (e :: es) =
      ({ e with id := c } :: (assignFreshIds (c + 1) es).1,
       (assignFreshIds (c + 1) es).2) := rfl

/-- An exercise of a fresh-id copy of a list is, apart from its id, an
exercise of the original list. -/
lemma assignFreshIds_mem :
    ∀ {es : List ExercisePlan} {c : Nat} {e' : ExercisePlan},
      e' ∈ (assignFreshIds c es).1 → ∃ e ∈ es, e' = { e with id := e'.id }
  | [], _, _, h => by simp [assignFreshIds] at h
  | e :: es, c, e', h => by
    rw [assignFreshIds_cons] at h
    rcases List.mem_cons.mp h with rfl | h'
    · exact ⟨e, List.mem_cons_self e es, rfl⟩
    · obtain ⟨e₀, he₀, heq⟩ := assignFreshIds_mem h'
      exact ⟨e₀, List.mem_cons_of_mem e he₀, heq⟩

/-- The session list `addSession` produces when every draft name is blank. -/
lemma addSession_sessions_empty (ce : Option (List ExercisePlan)) (st : SchedState)
    (h : (ce.getD st.exerciseDrafts).filter
      (fun e => decide (0 < (jsTrim e.name).length)) = []) :
    (addSession ce st).sessions =
      st.sessions ++
        [{ id := st.freshCounter + 1, day := st.sessionForm.day,
           start := st.sessionForm.start, endTime := st.sessionForm.endTime,
           focus := st.sessionForm.focus, intensity := st.sessionForm.intensity,
           location := st.sessionForm.location, target := st.sessionForm.target,
           notes := st.sessionForm.notes,
           exercises := [fallbackExercise st.freshCounter] }] := by
  simp [addSession, h]

/-- The session list `addSession` produces when some draft name is kept. -/
lemma addSession_sessions_nonempty (ce : Option (List ExercisePlan)) (st : SchedState)
    (kept : List ExercisePlan)
    (h : (ce.getD st.exerciseDrafts).filter
      (fun e => decide (0 < (jsTrim e.name).length)) = kept)
    (hne : kept ≠ []) :
    (addSession ce st).sessions =
      st.sessions ++
        [{ id := (assignFreshIds st.freshCounter kept).2, day := st.sessionForm.day,
           start := st.sessionForm.start, endTime := st.sessionForm.endTime,
           focus := st.sessionForm.focus, intensity := st.sessionForm.intensity,
           location := st.sessionForm.location, target := st.sessionForm.target,
           notes := st.sessionForm.notes,
           exercises := (assignFreshIds st.freshCounter kept).1 }] := by
  have hke : kept.isEmpty = false := by
    cases kept with
    | nil => exact absurd rfl hne
    | cons k ks => rfl
  simp [addSession, h, hke]

/-- Every exercise of the static template catalog has a positive set count. -/
lemma templates_sets_pos : ∀ t ∈ templates, ∀ e ∈ t.exercises, 0 < e.sets := by
  decide

/-- The day `duplicateSession` computes through `dayKeys` index arithmetic
is the cyclic step the specification describes. -/
lemma dayKeys_step (dir : Direction) (d : DayKey) :
    dayKeys.getD
      (match dir with
       | .next => (dayKeys.indexOf d + 1) % dayKeys.length
       | .previous =>
         (Int.tmod ((dayKeys.indexOf d : Int) - 1 + (dayKeys.length : Int))
           (dayKeys.length : Int)).toNat)
      .monday = stepDaySpec dir d := by
  cases dir <;> cases d <;> rfl

/-- When `find?` locates the id, `duplicateSession` appends one session. -/
lemma duplicateSession_sessions_found {st : SchedState} {sid : Nat}
    {target : SessionPlan} (dir : Direction) (today : String)
    (hfind : st.sessions.find? (fun s => s.id == sid) = some target) :
    ∃ copy, (duplicateSession sid dir today st).sessions = st.sessions ++ [copy] := by
  unfold duplicateSession
  rw [hfind]
  exact ⟨_, rfl⟩

/-- Dropping the sessions of one id shortens a list with pairwise distinct
ids by exactly one entry when the id occurs. -/
lemma length_filter_ne_of_nodup (sid : Nat) :
    ∀ l : List SessionPlan, (l.map (fun s => s.id)).Nodup →
      (∃ s ∈ l, s.id = sid) →
      (l.filter (fun s => s.id != sid)).length = l.length - 1
  | [], _, hex => by simp at hex
  | s :: l, hnd, hex => by
    have hnd' : (l.map (fun t => t.id)).Nodup ∧ s.id ∉ l.map (fun t => t.id) := by
      rw [List.map_cons, List.nodup_cons] at hnd
      exact ⟨hnd.2, hnd.1⟩
    rcases eq_or_ne s.id sid with hid | hid
    · have htail : l.filter (fun t => t.id != sid) = l := by
        rw [List.filter_eq_self]
        intro t ht
        have : t.id ≠ sid := by
          intro heq
          exact hnd'.2 (by rw [hid, ← heq]; exact List.mem_map_of_mem _ ht)
        simpa using this
      simp [List.filter_cons, hid, htail]
    · have hex' : ∃ t ∈ l, t.id = sid := by
        rcases hex with ⟨t, ht, htid⟩
        rcases List.mem_cons.mp ht with rfl | h'
        · exact absurd htid hid
        · exact ⟨t, h', htid⟩
      have ih := length_filter_ne_of_nodup sid l hnd'.1 hex'
      have hlen : 0 < l.length := by
        rcases hex' with ⟨t, ht, _⟩
        exact List.length_pos.mpr (List.ne_nil_of_mem ht)
      simp [List.filter_cons, hid, ih]
      omega

/-- The `localeCompare` sign is non-positive exactly when the first string
is lexicographically at most the second. -/
lemma localeCompareInt_le_zero_iff (a b : String) :
    localeCompareInt a b ≤ 0 ↔ a ≤ b := by
  unfold localeCompareInt
  by_cases hab : a < b
  · simp [hab, le_of_lt hab]
  · by_cases hba : b < a
    · simp [hab, hba, not_le.mpr hba]
    · have heq : a = b := le_antisymm (not_lt.mp hba) (not_lt.mp hab)
      simp [hab, hba, heq]

lemma startLE_iff (a b : SessionPlan) :
    (decide (localeCompareInt a.start b.start ≤ 0) = true) ↔ a.start ≤ b.start := by
  rw [decide_eq_true_eq]
  exact localeCompareInt_le_zero_iff _ _

lemma startLE_trans (a b c : SessionPlan) :
    decide (localeCompareInt a.start b.start ≤ 0) = true →
    decide (localeCompareInt b.start c.start ≤ 0) = true →
    decide (localeCompareInt a.start c.start ≤ 0) = true := by
  rw [startLE_iff, startLE_iff, startLE_iff]
  exact le_trans

lemma startLE_total (a b : SessionPlan) :
    decide (localeCompareInt a.start b.start ≤ 0) ||
      decide (localeCompareInt b.start a.start ≤ 0) := by
  rw [Bool.or_eq_true, startLE_iff, startLE_iff]
  exact le_total a.start b.start

/-- The `nextSessionId` comparator accepts `a` before `b` exactly when `a`
is at most `b` in the day-index-then-start-time lexicographic order. -/
lemma sessionLE_iff (a b : SessionPlan) :
    sessionLE a b = true ↔
      (dayKeys.indexOf a.day < dayKeys.indexOf b.day ∨
       (dayKeys.indexOf a.day = dayKeys.indexOf b.day ∧ a.start ≤ b.start)) := by
  unfold sessionLE sessionCmp
  rw [decide_eq_true_eq]
  by_cases hd : ((dayKeys.indexOf a.day : Int) - (dayKeys.indexOf b.day : Int)) ≠ 0
  · rw [if_pos hd]
    constructor
    · intro hle
      left
      omega
    · rintro (h | ⟨h, _⟩) <;> omega
  · rw [if_neg hd]
    have heq : dayKeys.indexOf a.day = dayKeys.indexOf b.day := by omega
    rw [localeCompareInt_le_zero_iff]
    constructor
    · intro h
      exact Or.inr ⟨heq, h⟩
    · rintro (h | ⟨_, h⟩)
      · omega
      · exact h

lemma sessionLE_trans (a b c : SessionPlan) :
    sessionLE a b = true → sessionLE b c = true → sessionLE a c = true := by
  rw [sessionLE_iff, sessionLE_iff, sessionLE_iff]
  rintro (h1 | ⟨h1, h1s⟩) (h2 | ⟨h2, h2s⟩)
  · exact Or.inl (lt_trans h1 h2)
  · exact Or.inl (by omega)
  · exact Or.inl (by omega)
  · exact Or.inr ⟨by omega, le_trans h1s h2s⟩

lemma sessionLE_total (a b : SessionPlan) :
    sessionLE a b || sessionLE b a := by
  rw [Bool.or_eq_true, sessionLE_iff, sessionLE_iff]
  rcases lt_trichotomy (dayKeys.indexOf a.day) (dayKeys.indexOf b.day) with h | h | h
  · exact Or.inl (Or.inl h)
  · rcases le_total a.start b.start with hs | hs
    · exact Or.inl (Or.inr ⟨h, hs⟩)
    · exact Or.inr (Or.inr ⟨h.symm, hs⟩)
  · exact Or.inr (Or.inl h)

set_option maxHeartbeats 4000000 in
lemma adjustTime_bounded :
    ∀ h < 24, ∀ m < 60,
      adjustTime 60 (fmtHHMM h m) =
        fmtHHMM (claimShift 60 h m / 60) (claimShift 60 h m % 60) ∧
      adjustTime (-60) (fmtHHMM h m) =
        fmtHHMM (claimShift (-60) h m / 60) (claimShift (-60) h m % 60) := by
  decide

/-- Claim C1: for every valid zero-padded "HH:MM" time (hours < 24,
minutes < 60, rendered by `fmtHHMM`) and each offset in {+60, -60},
`adjustTime` returns the zero-padded "HH:MM" string whose
minutes-since-midnight equal `((h*60 + m + off) % 1440 + 1440) % 1440`;
in particular "23:30" shifted by +60 yields "00:30" and "00:20" shifted
by -60 yields "23:20". -/
theorem C1_adjustTime_correct :
    (∀ h m : Nat, h < 24 → m < 60 → ∀ off : Int, off = 60 ∨ off = -60 →
      adjustTime off (fmtHHMM h m) =
        fmtHHMM (claimShift off h m / 60) (claimShift off h m % 60)) ∧
    adjustTime 60 ("23:30") = "00:30" ∧
    adjustTime (-60) ("00:20") = "23:20" := by
  refine ⟨?_, by decide, by decide⟩
  intro h m hh hm off hoff
  rcases hoff with rfl | rfl
  · exact (adjustTime_bounded h hh m hm).1
  · exact (adjustTime_bounded h hh m hm).2

/-- Witness for C1 at hours 23, minutes 30, offset +60. -/
theorem C1_adjustTime_correct_witness :
    (23 < 24 ∧ 30 < 60 ∧ ((60 : Int) = 60 ∨ (60 : Int) = -60)) ∧
    adjustTime 60 (fmtHHMM 23 30) =
      fmtHHMM (claimShift 60 23 30 / 60) (claimShift 60 23 30 % 60) :=
  ⟨⟨by decide, by decide, Or.inl rfl⟩,
    C1_adjustTime_correct.1 23 30 (by decide) (by decide) 60 (Or.inl rfl)⟩

/-- Claim C2: when every exercise draft has a blank (empty after trimming)
name, `addSession` appends exactly one new session, and that session's
exercise list is exactly the fixed fallback exercise (name
"Full-Body Circuit", 5 sets, reps "45s on / 15s off"); hence the
at-least-one-exercise invariant is preserved. -/
theorem C2_addSession_blank_drafts (st : SchedState)
    (hblank : ∀ e ∈ st.exerciseDrafts, jsTrim e.name = "") :
    ((addSession none st).sessions =
      st.sessions ++
        [{ id := st.freshCounter + 1, day := st.sessionForm.day,
           start := st.sessionForm.start, endTime := st.sessionForm.endTime,
           focus := st.sessionForm.focus, intensity := st.sessionForm.intensity,
           location := st.sessionForm.location, target := st.sessionForm.target,
           notes := st.sessionForm.notes,
           exercises := [fallbackExercise st.freshCounter] }]) ∧
    (fallbackExercise st.freshCounter).name = "Full-Body Circuit" ∧
    (fallbackExercise st.freshCounter).sets = 5 ∧
    (fallbackExercise st.freshCounter).reps = "45s on / 15s off" ∧
    ((∀ s ∈ st.sessions, s.exercises ≠ []) →
      ∀ s ∈ (addSession none st).sessions, s.exercises ≠ []) := by
  have hk : st.exerciseDrafts.filter (fun e => decide (0 < (jsTrim e.name).length)) = [] := by
    rw [List.filter_eq_nil_iff]
    intro e he
    rw [hblank e he]
    decide
  have hmain : (addSession none st).sessions =
      st.sessions ++
        [{ id := st.freshCounter + 1, day := st.sessionForm.day,
           start := st.sessionForm.start, endTime := st.sessionForm.endTime,
           focus := st.sessionForm.focus, intensity := st.sessionForm.intensity,
           location := st.sessionForm.location, target := st.sessionForm.target,
           notes := st.sessionForm.notes,
           exercises := [fallbackExercise st.freshCounter] }] := by
    simp [addSession, hk]
  refine ⟨hmain, rfl, rfl, rfl, ?_⟩
  intro hinv s hs
  rw [hmain] at hs
  rcases List.mem_append.mp hs with h | h
  · exact hinv s h
  · rcases List.mem_singleton.mp h with rfl
    simp

/-- Witness for C2 at the initial state, whose single draft has name "". -/
theorem C2_addSession_blank_drafts_witness :
    (∀ e ∈ initState.exerciseDrafts, jsTrim e.name = "") ∧
    (addSession none initState).sessions =
      initState.sessions ++
        [{ id := initState.freshCounter + 1, day := initState.sessionForm.day,
           start := initState.sessionForm.start, endTime := initState.sessionForm.endTime,
           focus := initState.sessionForm.focus, intensity := initState.sessionForm.intensity,
           location := initState.sessionForm.location, target := initState.sessionForm.target,
           notes := initState.sessionForm.notes,
           exercises := [fallbackExercise initState.freshCounter] }] :=
  ⟨by decide, (C2_addSession_blank_drafts initState (by decide)).1⟩

/-- Claim C4 counterexample: before any mutation operation has run the
session store already contains a session - the component seeds its state
with one default session, so the store's length is not 0. -/
theorem C4_initial_store_cex : ¬ (initState.sessions.length = 0) := by decide

/-- Claim C4 amended: the initial store contains exactly one implicitly
seeded session, built from the initial form values and the default
exercises; apart from this seed, the session list is only ever changed by
the explicit mutation operations - the draft-editing operations never
touch it. -/
theorem C4_initial_store_amended :
    initState.sessions.length = 1 ∧
    initState.sessions =
      [{ id := 10, day := initialSessionForm.day, start := initialSessionForm.start,
         endTime := initialSessionForm.endTime, focus := initialSessionForm.focus,
         intensity := initialSessionForm.intensity, location := initialSessionForm.location,
         target := initialSessionForm.target, notes := initialSessionForm.notes,
         exercises := defaultExercises }] ∧
    (∀ st id u, (handleExerciseChange id u st).sessions = st.sessions) ∧
    (∀ st, (addExerciseDraft st).sessions = st.sessions) ∧
    (∀ st id, (removeExerciseDraft id st).sessions = st.sessions) :=
  ⟨rfl, rfl, fun _ _ _ => rfl, fun _ => rfl, fun _ _ => rfl⟩

/-- Claim C5 counterexample: the sets input handler turns a cleared input
into the value 0 (`Number('') || 0`), a draft edit stores it, and Add
Session copies it verbatim, so the resulting store contains a session with
an exercise whose set count is not positive. -/
theorem C5_positive_sets_cex :
    ¬ SetsPos (addSession none
        (handleExerciseChange 11 (.sets (setsInputValue ("")))
          (handleExerciseChange 11 (.name ("Squat")) initState))).sessions := by
  decide

/-- Claim C5 amended: set counts stay positive under Apply Template and
Duplicate Session, and under Add Session provided every exercise draft
considered has a positive set count; the initial store satisfies the
invariant.  The unconditional claim fails because a draft edit can store a
set count of 0. -/
theorem C5_positive_sets_amended :
    SetsPos initState.sessions ∧
    (∀ st, SetsPos st.sessions →
      ∀ day idx, SetsPos (applyTemplateToDay day idx st).sessions) ∧
    (∀ st sid dir today, SetsPos st.sessions →
      SetsPos (duplicateSession sid dir today st).sessions) ∧
    (∀ st ce, SetsPos st.sessions →
      (∀ e ∈ ce.getD st.exerciseDrafts, 0 < e.sets) →
      SetsPos (addSession ce st).sessions) := by
  refine ⟨by decide, ?_, ?_, ?_⟩
  · intro st h day idx s hs
    rcases List.mem_append.mp hs with h' | h'
    · exact h s h'
    · rcases List.mem_singleton.mp h' with rfl
      intro e he
      obtain ⟨e₀, he₀, heq⟩ := assignFreshIds_mem he
      rw [heq]
      exact templates_sets_pos _ (List.get_mem templates idx.1 idx.2) e₀ he₀
  · intro st sid dir today h s hs
    rcases hfind : st.sessions.find? (fun t => t.id == sid) with _ | target
    · unfold duplicateSession at hs
      rw [hfind] at hs
      exact h s hs
    · unfold duplicateSession at hs
      rw [hfind] at hs
      rcases List.mem_append.mp hs with h' | h'
      · exact h s h'
      · rcases List.mem_singleton.mp h' with rfl
        intro e he
        obtain ⟨e₀, he₀, heq⟩ := assignFreshIds_mem he
        rw [heq]
        exact h target (List.mem_of_find?_eq_some hfind) e₀ he₀
  · intro st ce h hdraft s hs
    rcases hk : (ce.getD st.exerciseDrafts).filter
        (fun e => decide (0 < (jsTrim e.name).length)) with _ | ⟨k, ks⟩
    · rw [addSession_sessions_empty ce st hk] at hs
      rcases List.mem_append.mp hs with h' | h'
      · exact h s h'
      · rcases List.mem_singleton.mp h' with rfl
        intro e he
        rcases List.mem_singleton.mp he with rfl
        show (0 : Int) < 5
        decide
    · rw [addSession_sessions_nonempty ce st (k :: ks) hk (by simp)] at hs
      rcases List.mem_append.mp hs with h' | h'
      · exact h s h'
      · rcases List.mem_singleton.mp h' with rfl
        intro e he
        obtain ⟨e₀, he₀, heq⟩ := assignFreshIds_mem he
        have hmem : e₀ ∈ ce.getD st.exerciseDrafts := by
          rw [← hk] at he₀
          exact List.mem_of_mem_filter he₀
        rw [heq]
        exact hdraft e₀ hmem

/-- Witness for the amended C5 at the initial state: template application,
duplication of the seeded session, and a plain Add Session all keep set
counts positive. -/
theorem C5_positive_sets_amended_witness :
    (SetsPos initState.sessions ∧
      (∀ e ∈ (none : Option (List ExercisePlan)).getD initState.exerciseDrafts,
        0 < e.sets)) ∧
    SetsPos (applyTemplateToDay DayKey.tuesday ⟨0, by decide⟩ initState).sessions ∧
    SetsPos (duplicateSession 10 .next ("Oct 11") initState).sessions ∧
    SetsPos (addSession none initState).sessions :=
  ⟨⟨by decide, by decide⟩,
    C5_positive_sets_amended.2.1 initState (by decide) DayKey.tuesday ⟨0, by decide⟩,
    C5_positive_sets_amended.2.2.1 initState 10 .next ("Oct 11") (by decide),
    C5_positive_sets_amended.2.2.2 initState none (by decide) (by decide)⟩

/-- Claim C6: Duplicate Session steps the day exactly one position through
the fixed Monday..Sunday cycle with wraparound: the appended copy's day is
the cyclic successor ("next") or predecessor ("previous") of the
original's day; in particular "next" from Sunday gives Monday and
"previous" from Monday gives Sunday. -/
theorem C6_duplicateSession_day_step (st : SchedState) (sid : Nat) (dir : Direction)
    (today : String) (target : SessionPlan)
    (hfind : st.sessions.find? (fun s => s.id == sid) = some target) :
    (∃ copy, (duplicateSession sid dir today st).sessions = st.sessions ++ [copy] ∧
      copy.day = stepDaySpec dir target.day) ∧
    stepDaySpec .next .sunday = .monday ∧
    stepDaySpec .previous .monday = .sunday := by
  refine ⟨?_, rfl, rfl⟩
  unfold duplicateSession
  rw [hfind]
  exact ⟨_, rfl, dayKeys_step dir target.day⟩

/-- Witness for C6: duplicating the seeded Monday session forward. -/
theorem C6_duplicateSession_day_step_witness :
    (initState.sessions.find? (fun s => s.id == 10) =
      some (initState.sessions.get ⟨0, by decide⟩)) ∧
    ∃ copy, (duplicateSession 10 .next ("Oct 11") initState).sessions =
        initState.sessions ++ [copy] ∧
      copy.day = stepDaySpec .next (initState.sessions.get ⟨0, by decide⟩).day :=
  ⟨by decide,
    (C6_duplicateSession_day_step initState 10 .next ("Oct 11")
      (initState.sessions.get ⟨0, by decide⟩) (by decide)).1⟩

/-- Claim C7: when a session with the id is present, Duplicate Session only
appends - the new session list is the old list with one appended copy, so
the original session (id, day, times, notes, exercises) survives unchanged
in its position; when no session has the id, the whole state is unchanged
(no error signalled). -/
theorem C7_duplicateSession_frame (st : SchedState) (sid : Nat) (dir : Direction)
    (today : String) :
    ((∃ s ∈ st.sessions, s.id = sid) →
      ∃ copy, (duplicateSession sid dir today st).sessions = st.sessions ++ [copy] ∧
        (duplicateSession sid dir today st).sessions.take st.sessions.length =
          st.sessions) ∧
    ((∀ s ∈ st.sessions, s.id ≠ sid) → duplicateSession sid dir today st = st) := by
  constructor
  · intro hex
    have hsome : (st.sessions.find? (fun s => s.id == sid)).isSome := by
      rw [List.find?_isSome]
      obtain ⟨s, hs, hid⟩ := hex
      exact ⟨s, hs, by simp [hid]⟩
    rcases hfind : st.sessions.find? (fun s => s.id == sid) with _ | target
    · rw [hfind] at hsome
      simp at hsome
    · obtain ⟨copy, heq⟩ := duplicateSession_sessions_found dir today hfind
      refine ⟨copy, heq, ?_⟩
      rw [heq, List.take_left]
  · intro hall
    have hfind : st.sessions.find? (fun s => s.id == sid) = none := by
      rw [List.find?_eq_none]
      intro s hs
      simp [hall s hs]
    unfold duplicateSession
    rw [hfind]

/-- Witness for C7: duplicating the seeded session (id 10) appends and
keeps the prefix; duplicating an absent id (99) changes nothing. -/
theorem C7_duplicateSession_frame_witness :
    ((∃ s ∈ initState.sessions, s.id = 10) ∧
      ∃ copy, (duplicateSession 10 .next ("Oct 11") initState).sessions =
          initState.sessions ++ [copy] ∧
        (duplicateSession 10 .next ("Oct 11") initState).sessions.take
          initState.sessions.length = initState.sessions) ∧
    ((∀ s ∈ initState.sessions, s.id ≠ 99) ∧
      duplicateSession 99 .next ("Oct 11") initState = initState) :=
  ⟨⟨by decide, (C7_duplicateSession_frame initState 10 .next ("Oct 11")).1 (by decide)⟩,
   ⟨by decide, (C7_duplicateSession_frame initState 99 .next ("Oct 11")).2 (by decide)⟩⟩

/-- Claim C9: Remove Session leaves the whole state unchanged (no error
signalled) when no session has the identifier, and shrinks the store by
exactly 1 when one does (under the store's unique-identifier invariant);
the surviving sessions form a sublist of the originals. -/
theorem C9_removeSession_size (st : SchedState) (sid : Nat) :
    ((∀ s ∈ st.sessions, s.id ≠ sid) → removeSession sid st = st) ∧
    ((st.sessions.map (fun s => s.id)).Nodup → (∃ s ∈ st.sessions, s.id = sid) →
      (removeSession sid st).sessions.length = st.sessions.length - 1) ∧
    (removeSession sid st).sessions.Sublist st.sessions := by
  refine ⟨?_, ?_, List.filter_sublist _⟩
  · intro hall
    have hself : st.sessions.filter (fun s => s.id != sid) = st.sessions := by
      rw [List.filter_eq_self]
      intro s hs
      simpa using hall s hs
    simp [removeSession, hself]
  · intro hnd hex
    exact length_filter_ne_of_nodup sid st.sessions hnd hex

/-- Witness for C9: removing an absent id (99) is a no-op on the initial
state; removing the seeded id (10) shrinks the store by one. -/
theorem C9_removeSession_size_witness :
    ((∀ s ∈ initState.sessions, s.id ≠ 99) ∧ removeSession 99 initState = initState) ∧
    ((initState.sessions.map (fun s => s.id)).Nodup ∧
      (∃ s ∈ initState.sessions, s.id = 10) ∧
      (removeSession 10 initState).sessions.length = initState.sessions.length - 1) :=
  ⟨⟨by decide, (C9_removeSession_size initState 99).1 (by decide)⟩,
   ⟨by decide, by decide,
     (C9_removeSession_size initState 10).2.1 (by decide) (by decide)⟩⟩

/-- Claim C10: every mutation operation preserves the pre-existing sessions
and their relative order: Add Session, Apply Template and a successful
Duplicate Session append exactly one session at the end, an unsuccessful
Duplicate Session leaves the list unchanged, and Remove Session and Clear
Day leave the surviving sessions as a sublist (original order, original
records) of the old list. -/
theorem C10_mutations_preserve_order (st : SchedState) :
    (∀ ce, ∃ s, (addSession ce st).sessions = st.sessions ++ [s]) ∧
    (∀ day idx, ∃ s, (applyTemplateToDay day idx st).sessions = st.sessions ++ [s]) ∧
    (∀ sid dir today,
      ((∃ t ∈ st.sessions, t.id = sid) →
        ∃ s, (duplicateSession sid dir today st).sessions = st.sessions ++ [s]) ∧
      ((∀ t ∈ st.sessions, t.id ≠ sid) →
        (duplicateSession sid dir today st).sessions = st.sessions)) ∧
    (∀ sid, (removeSession sid st).sessions.Sublist st.sessions) ∧
    (∀ day, (clearDay day st).sessions.Sublist st.sessions) := by
  refine ⟨?_, ?_, ?_, fun sid => List.filter_sublist _, fun day => List.filter_sublist _⟩
  · intro ce
    rcases hk : (ce.getD st.exerciseDrafts).filter
        (fun e => decide (0 < (jsTrim e.name).length)) with _ | ⟨k, ks⟩
    · exact ⟨_, addSession_sessions_empty ce st hk⟩
    · exact ⟨_, addSession_sessions_nonempty ce st (k :: ks) hk (by simp)⟩
  · intro day idx
    exact ⟨_, rfl⟩
  · intro sid dir today
    constructor
    · intro hex
      have hsome : (st.sessions.find? (fun s => s.id == sid)).isSome := by
        rw [List.find?_isSome]
        obtain ⟨t, ht, hid⟩ := hex
        exact ⟨t, ht, by simp [hid]⟩
      rcases hfind : st.sessions.find? (fun s => s.id == sid) with _ | target
      · rw [hfind] at hsome
        simp at hsome
      · exact duplicateSession_sessions_found dir today hfind
    · intro hall
      have hfind : st.sessions.find? (fun s => s.id == sid) = none := by
        rw [List.find?_eq_none]
        intro s hs
        simp [hall s hs]
      unfold duplicateSession
      rw [hfind]

/-- Witness for C10 at the initial state: Add Session appends, and
duplication of the present id 10 appends. -/
theorem C10_mutations_preserve_order_witness :
    (∃ s, (addSession none initState).sessions = initState.sessions ++ [s]) ∧
    ((∃ t ∈ initState.sessions, t.id = 10) ∧
      ∃ s, (duplicateSession 10 .previous ("Oct 11") initState).sessions =
        initState.sessions ++ [s]) :=
  ⟨(C10_mutations_preserve_order initState).1 none,
   ⟨by decide,
     ((C10_mutations_preserve_order initState).2.2.1 10 .previous ("Oct 11")).1
       (by decide)⟩⟩

/-- Claim C3: `nextSessionId` is `none` exactly for the empty store; for a
non-empty store it is the id of a session minimal in the ordering that
compares day indices in the Monday-first week (Monday index 0, Sunday
index 6) and breaks ties by lexicographic comparison of the start-time
strings. -/
theorem C3_nextSessionId_min (sessions : List SessionPlan) :
    (nextSessionId sessions = none ↔ sessions = []) ∧
    (dayKeys.indexOf DayKey.monday = 0 ∧ dayKeys.indexOf DayKey.tuesday = 1 ∧
     dayKeys.indexOf DayKey.wednesday = 2 ∧ dayKeys.indexOf DayKey.thursday = 3 ∧
     dayKeys.indexOf DayKey.friday = 4 ∧ dayKeys.indexOf DayKey.saturday = 5 ∧
     dayKeys.indexOf DayKey.sunday = 6) ∧
    (sessions ≠ [] →
      ∃ s ∈ sessions, nextSessionId sessions = some s.id ∧
        ∀ t ∈ sessions,
          dayKeys.indexOf s.day < dayKeys.indexOf t.day ∨
          (dayKeys.indexOf s.day = dayKeys.indexOf t.day ∧ s.start ≤ t.start)) := by
  have hmain : sessions ≠ [] →
      ∃ s ∈ sessions, nextSessionId sessions = some s.id ∧
        ∀ t ∈ sessions,
          dayKeys.indexOf s.day < dayKeys.indexOf t.day ∨
          (dayKeys.indexOf s.day = dayKeys.indexOf t.day ∧ s.start ≤ t.start) := by
    intro hne
    have hlen : ¬ sessions.length = 0 := by
      simpa [List.length_eq_zero] using hne
    have hperm := List.mergeSort_perm sessions sessionLE
    have hmne : sessions.mergeSort sessionLE ≠ [] := by
      intro hnil
      exact hne (by simpa [hnil] using hperm.symm)
    have hsorted := List.sorted_mergeSort sessionLE_trans sessionLE_total sessions
    rcases List.exists_cons_of_ne_nil hmne with ⟨a, l', heq⟩
    refine ⟨a, ?_, ?_, ?_⟩
    · exact List.mem_mergeSort.mp (by rw [heq]; exact List.mem_cons_self a l')
    · unfold nextSessionId
      rw [if_neg hlen, heq]
      rfl
    · intro t ht
      have ht' : t ∈ sessions.mergeSort sessionLE := List.mem_mergeSort.mpr ht
      rw [heq] at ht' hsorted
      rcases List.mem_cons.mp ht' with rfl | htl
      · exact Or.inr ⟨rfl, le_refl _⟩
      · exact (sessionLE_iff a t).mp ((List.pairwise_cons.mp hsorted).1 t htl)
  refine ⟨?_, by decide, hmain⟩
  constructor
  · intro h
    by_contra hne
    obtain ⟨s, _, hid, _⟩ := hmain hne
    rw [h] at hid
    exact Option.noConfusion hid
  · intro h
    subst h
    rfl

/-- Witness for C3: the singleton initial store has a next session. -/
theorem C3_nextSessionId_min_witness :
    (initState.sessions ≠ []) ∧
    ∃ s ∈ initState.sessions, nextSessionId initState.sessions = some s.id ∧
      ∀ t ∈ initState.sessions,
        dayKeys.indexOf s.day < dayKeys.indexOf t.day ∨
        (dayKeys.indexOf s.day = dayKeys.indexOf t.day ∧ s.start ≤ t.start) :=
  ⟨by decide, (C3_nextSessionId_min initState.sessions).2.2 (by decide)⟩

/-- Claim C8: the day grouping has one bucket per entry of the fixed
7-element day list; a session lies in a bucket exactly when the bucket is
its day's (so the buckets partition the sessions - each bucket is even a
permutation of the corresponding filter); and every bucket is
non-decreasing in start time under lexicographic string comparison. -/
theorem C8_grouped_partition (sessions : List SessionPlan) :
    dayKeys.length = 7 ∧
    (∀ d s, s ∈ grouped sessions d ↔ (s ∈ sessions ∧ s.day = d)) ∧
    (∀ d, (grouped sessions d).Perm
      (sessions.filter (fun s => decide (s.day = d)))) ∧
    (∀ d, (grouped sessions d).Pairwise (fun a b => a.start ≤ b.start)) := by
  refine ⟨rfl, ?_, ?_, ?_⟩
  · intro d s
    unfold grouped
    rw [List.mem_mergeSort, List.mem_filter]
    simp
  · intro d
    exact List.mergeSort_perm _ _
  · intro d
    have hs := List.sorted_mergeSort startLE_trans startLE_total
      (sessions.filter (fun s => decide (s.day = d)))
    exact hs.imp (fun hab => (startLE_iff _ _).mp hab)

end GymPlanner
